import Mathlib

/-!
Verification of the bgpipe pipeline orchestrator and its external I/O
adapter, shallowly embedded from the Go sources (`pkg/bgpipe/bgpipe.go`
and the extio adapter).  Pure functions of the Go code become Lean
functions; the calls into the external bgpfix codec library (JSON, raw
wire and MRT message parsing and serialization) are abstracted as oracle
parameters, since the codec is out of scope of the core.  All definitions
come first, then the theorems.
-/

namespace BG

/-! ## Event-name rewriting (StageBase.cfgEvents) -/

/-- Go `strings.IndexByte` on a character list: the index of the first
occurrence of `c`, or `-1` when absent. -/
def indexOfChar (c : Char) : List Char → Int
  | [] => -1
  | x :: rest =>
    if x = c then 0
    else
      let r := indexOfChar c rest
      if r < 0 then -1 else r + 1

/-- Go `strings.ToUpper` restricted to ASCII (event names are ASCII). -/
def asciiUpper (s : String) : String :=
  String.mk (s.data.map fun ch =>
    if 'a' ≤ ch ∧ ch ≤ 'z' then Char.ofNat (ch.toNat - 32) else ch)

/-- The body of the rewrite loop in `StageBase.cfgEvents`: one event type
string is completed to its fully-qualified form. -/
def cfgEventRewrite (et : String) : String :=
  let has_pkg := 0 < indexOfChar '.' et.data
  let has_lib := 0 < indexOfChar '/' et.data
  if has_pkg ∧ has_lib then et
  else if ¬has_lib then
    if ¬has_pkg then "bgpfix/pipe." ++ asciiUpper et
    else "bgpfix/" ++ et
  else et

/-- `StageBase.cfgEvents`: nil for an empty list, otherwise every element
is rewritten in place by the completion loop. -/
def cfgEvents (events : List String) : List String :=
  if events.length = 0 then []
  else events.map cfgEventRewrite

/-! ## Adaptive read buffer (Extio.ReadStream) -/

/-- The buffer-growth step at the bottom of the `Extio.ReadStream` loop:
after a read of `n` bytes into a buffer of `l` bytes, the buffer is
reallocated at twice the size iff `n > l/2` and `l ≤ 4*1024*1024`. -/
def growBuf (l n : Nat) : Nat :=
  if l / 2 < n ∧ l ≤ 4 * 1024 * 1024 then l * 2 else l

/-- The buffer size after a sequence of reads in `Extio.ReadStream`.  Each
element of `reads` is the byte count the reader would deliver, capped by
the current buffer size (an `io.Reader` returns `n ≤ len(buf)`).  The
initial buffer is `64*1024` bytes. -/
def readStreamSize (reads : List Nat) : Nat :=
  reads.foldl (fun l n => growBuf l (min n l)) (64 * 1024)

/-! ## The --reverse transformation (Bgpipe.Attach) -/

/-- A pipeline stage as the `--reverse` step of `Bgpipe.Attach` sees it:
its command, its `Index` field, and its config's `left`/`right` flags.
`Bgpipe.Stages` is a sparse list, so slots hold `Option RStage`. -/
structure RStage where
  Cmd : String
  Index : Nat
  left : Bool
  right : Bool
  deriving DecidableEq

/-- `slices.Reverse(b.Stages[1:])`: reverse every slot but the reserved
slot 0 (stated for any element type, so it can also act on the observable
projections of the slots). -/
def reverseTail {α : Type} (l : List α) : List α :=
  match l with
  | [] => []
  | s0 :: rest => s0 :: rest.reverse

/-- The loop after the reverse in `Bgpipe.Attach`: for every slot, at its
position `n`, reassign `Index := n` and swap the `left`/`right` config
flags; nil slots are skipped. -/
def renumberSwap (n : Nat) : List (Option RStage) → List (Option RStage)
  | [] => []
  | s :: rest =>
    (match s with
     | none => none
     | some s => some { s with Index := n, left := s.right, right := s.left }) ::
      renumberSwap (n + 1) rest

/-- The whole `--reverse` transformation performed by `Bgpipe.Attach`. -/
def applyReverse (l : List (Option RStage)) : List (Option RStage) :=
  renumberSwap 0 (reverseTail l)

/-- The observable identity of a slot: which stage sits there and its
left/right assignment (the reassigned `Index` always equals the position,
so it is not part of the identity). -/
def stageLR (s : Option RStage) : Option (String × Bool × Bool) :=
  s.map fun s => (s.Cmd, s.left, s.right)

/-- Like `stageLR` but with the two direction flags exchanged. -/
def stageRL (s : Option RStage) : Option (String × Bool × Bool) :=
  s.map fun s => (s.Cmd, s.right, s.left)

/-! ## Messages and directions (bgpfix msg package, as the core sees it) -/

/-- `msg.DIR_L`: the adapter only compares directions against `DIR_L` and
`DIR_R`, so their numeric values are symbolic. -/
def DIR_L : Nat := 1

/-- `msg.DIR_R`. -/
def DIR_R : Nat := 2

/-- `msg.INVALID` message type code. -/
def msgINVALID : Nat := 0

/-- `msg.UPDATE` message type code. -/
def msgUPDATE : Nat := 2

/-- `msg.KEEPALIVE` message type code. -/
def msgKEEPALIVE : Nat := 4

/-- A BGP message as the adapter observes it: type code, direction,
sequence number, timestamp and tag list; the payload stays inside the
codec oracles. -/
structure Msg where
  typ : Nat
  dir : Nat
  seq : Nat
  time : Nat
  tags : List (String × String)
  deriving DecidableEq

/-- `pipe.GetMsg` hands out a reset message. -/
def freshMsg : Msg :=
  { typ := msgINVALID, dir := 0, seq := 0, time := 0, tags := [] }

/-- `m.Use(t)`: set the message up for the given type. -/
def msgUse (m : Msg) (t : Nat) : Msg :=
  { m with typ := t }

/-! ## External I/O adapter options and errors (extio) -/

/-- The extio sentinel and config errors.  `length` is `ErrLength`,
`format` is `ErrFormat`; `codec` stands for an error produced inside the
bgpfix codec; `typeFlag`, `readWrite` and `rawMrt` are the three
configuration errors `Extio.Attach` can return. -/
inductive ExtErr where
  | length
  | format
  | codec (code : Nat)
  | typeFlag (v : String)
  | readWrite
  | rawMrt
  deriving DecidableEq

/-- The option fields of the `Extio` struct after `Extio.Attach` read its
config (`opt_raw`, `opt_mrt`, `opt_read`, `opt_write`, `opt_copy`,
`opt_noseq`, `opt_notime`, `opt_notags`, `opt_pardon`, `opt_type`). -/
structure EioOpts where
  raw : Bool
  mrt : Bool
  read : Bool
  write : Bool
  copy : Bool
  noseq : Bool
  notime : Bool
  notags : Bool
  pardon : Bool
  types : List Nat
  deriving DecidableEq

/-- Go `strconv.Atoi`: optional sign, then at least one decimal digit
(overflow aside, which no claim touches). -/
def digitsVal (cs : List Char) (acc : Nat) : Option Nat :=
  match cs with
  | [] => some acc
  | c :: rest => if c.isDigit then digitsVal rest (acc * 10 + (c.toNat - 48)) else none

/-- Go `strconv.Atoi` on a string, `none` for a parse error. -/
def goAtoi (s : String) : Option Int :=
  let digits : List Char → Option Nat := fun cs =>
    match cs with
    | [] => none
    | _ => digitsVal cs 0
  match s.data with
  | '+' :: rest => (digits rest).map Int.ofNat
  | '-' :: rest => (digits rest).map fun n => -(n : Int)
  | l => (digits l).map Int.ofNat

/-- The `--type` parsing loop of `Extio.Attach`: empty entries are
skipped; a canonical name is resolved through the codec's `msg.TypeString`
(the oracle `ts`); otherwise a plain integer in `0..0xff` is accepted; and
anything else is a `--type` configuration error. -/
def parseTypes (ts : String → Option Nat) : List String → Except ExtErr (List Nat)
  | [] => .ok []
  | v :: rest =>
    if v.length = 0 then parseTypes ts rest
    else
      match ts v with
      | some t => (parseTypes ts rest).map fun l => t :: l
      | none =>
        match goAtoi v with
        | some n =>
          if 0 ≤ n ∧ n ≤ 255 then (parseTypes ts rest).map fun l => n.toNat :: l
          else .error (.typeFlag v)
        | none => .error (.typeFlag v)

/-- The flag values `Extio.Attach` reads from the stage config. -/
structure AttachFlags where
  raw : Bool
  mrt : Bool
  read : Bool
  write : Bool
  copy : Bool
  noseq : Bool
  notime : Bool
  notags : Bool
  pardon : Bool
  typeStrings : List String
  deriving DecidableEq

/-- The option logic of `Extio.Attach`: load the flags, parse `--type`,
then check the mode options in source order — `--read`/`--write` first
(exactly one of them forces `--copy`), then `--raw`/`--mrt`.  The
subsequent wiring of inputs and the callback into the pipe is modelled
separately where a claim needs it. -/
def eioAttach (ts : String → Option Nat) (a : AttachFlags) : Except ExtErr EioOpts :=
  match parseTypes ts a.typeStrings with
  | .error e => .error e
  | .ok tl =>
    let o : EioOpts :=
      { raw := a.raw, mrt := a.mrt, read := a.read, write := a.write,
        copy := a.copy, noseq := a.noseq, notime := a.notime,
        notags := a.notags, pardon := a.pardon, types := tl }
    if o.read ∨ o.write then
      if o.read ∧ o.write then .error .readWrite
      else
        let o := { o with copy := true }
        if o.raw ∧ o.mrt then .error .rawMrt else .ok o
    else
      if o.raw ∧ o.mrt then .error .rawMrt else .ok o

/-! ## Ingress path (Extio.ReadSingle / ReadBuf) -/

/-- Result of the MRT framer call `eio.mrt.FromBytes` as `ReadSingle`
distinguishes it: `sub` is `mrt.ErrSub` (a BGP4MP record that is not a
BGP message), `fail` any other error, `parsed` success with the consumed
byte count. -/
inductive MrtRes where
  | sub
  | fail (e : ExtErr)
  | parsed (n : Nat) (m : Msg)

/-- The bgpfix codec calls `Extio.ReadSingle` makes, abstracted as
oracles.  `fromBytes` is `m.FromBytes` (raw wire), `mrtFromBytes` the MRT
framer, `fromJSON` is `m.FromJSON`, `updFromJSON` is
`m.Update.FromJSON`; the two JSON calls take the message they write into
and return its final state next to the error, mirroring the Go
by-pointer mutation. -/
structure Codec where
  fromBytes : List Nat → Option ExtErr × Nat × Msg
  mrtFromBytes : List Nat → MrtRes
  fromJSON : List Nat → Msg → Option ExtErr × Msg
  updFromJSON : List Nat → Msg → Option ExtErr × Msg

/-- The six ASCII bytes Go `bytes.TrimSpace` strips. -/
def asciiSpace (b : Nat) : Bool :=
  b == 9 || b == 10 || b == 11 || b == 12 || b == 13 || b == 32

/-- Go `bytes.TrimSpace` on ASCII input. -/
def trimSpace (l : List Nat) : List Nat :=
  ((l.dropWhile asciiSpace).reverse.dropWhile asciiSpace).reverse

/-- `Extio.checkMsg`: drop the message when a `--type` filter is set and
does not list its type; otherwise rewrite the metadata that `--no-seq`,
`--no-time` and `--no-tags` ask to rewrite, and keep it.  `now` stands
for `time.Now().UTC()`. -/
def checkMsg (o : EioOpts) (now : Nat) (m : Msg) : Bool × Msg :=
  if 0 < o.types.length ∧ ¬o.types.contains m.typ then (false, m)
  else
    let m := if o.noseq then { m with seq := 0 } else m
    let m := if o.notime then { m with time := now } else m
    let m := if o.notags then { m with tags := [] } else m
    (true, m)

/-- The `check` closure of `ReadSingle`/`ReadBuf`: `checkMsg` alone, or
`checkMsg` short-circuit-conjoined with the caller's callback. -/
def checkWithCb (o : EioOpts) (now : Nat) (cb : Option (Msg → Bool)) (m : Msg) :
    Bool × Msg :=
  match checkMsg o now m with
  | (false, m1) => (false, m1)
  | (true, m1) =>
    match cb with
    | none => (true, m1)
    | some f => (f m1, m1)

/-- Which input a parsed message is written to: `InputL`, `InputR` or the
default input. -/
inductive Dest where
  | inL
  | inR
  | inD
  deriving DecidableEq

/-- What one `ReadSingle` call did: returned nil with nothing enqueued,
returned a parse error, or enqueued the message on an input. -/
inductive ReadRes where
  | skipped
  | failed (e : ExtErr)
  | enqueued (m : Msg) (d : Dest)
  deriving DecidableEq

/-- Outcome of the parsing section of `ReadSingle` (everything up to the
`parse_err` check): `silent` covers the MRT `ErrSub` skip and the
comment/empty-line skip of text mode. -/
inductive Parsed where
  | silent
  | failed (e : ExtErr)
  | ok (m : Msg)
  deriving Inhabited

/-- The parsing section of `Extio.ReadSingle`: raw mode consumes the whole
buffer as one frame (`ErrLength` on trailing bytes), MRT mode calls the
framer and silently skips `ErrSub`, text mode trims the buffer and
dispatches on its first byte — `'#'` (35) or empty skips, `'['` (91)
parses a generic message (an INVALID result is coerced to KEEPALIVE),
`'\x7b'` (123) parses an UPDATE, anything else is `ErrFormat`. -/
def parsePhase (o : EioOpts) (c : Codec) (buf : List Nat) : Parsed :=
  let m := freshMsg
  if o.raw then
    match c.fromBytes buf with
    | (some e, _, _) => .failed e
    | (none, n, m1) => if n ≠ buf.length then .failed .length else .ok m1
  else if o.mrt then
    match c.mrtFromBytes buf with
    | .sub => .silent
    | .fail e => .failed e
    | .parsed n m1 => if n ≠ buf.length then .failed .length else .ok m1
  else
    let tbuf := trimSpace buf
    if tbuf.length = 0 ∨ tbuf.headD 0 = 35 then .silent
    else if tbuf.headD 0 = 91 then
      match c.fromJSON tbuf m with
      | (e, m1) =>
        let m2 := if m1.typ = msgINVALID then msgUse m1 msgKEEPALIVE else m1
        match e with
        | some e1 => .failed e1
        | none => .ok m2
    else if tbuf.headD 0 = 123 then
      match c.updFromJSON tbuf (msgUse m msgUPDATE) with
      | (some e1, _) => .failed e1
      | (none, m1) => .ok m1
    else .failed .format

/-- `Extio.ReadSingle`: nothing in write-only mode; then parse, apply the
`--pardon` policy to a parse error, run the check closure, and enqueue
the message on the input matching its direction. -/
def readSingle (o : EioOpts) (c : Codec) (now : Nat) (cb : Option (Msg → Bool))
    (buf : List Nat) : ReadRes :=
  if o.write then .skipped
  else
    match parsePhase o c buf with
    | .silent => .skipped
    | .failed e => if o.pardon then .skipped else .failed e
    | .ok m =>
      match checkWithCb o now cb m with
      | (false, _) => .skipped
      | (true, m1) =>
        if m1.dir = DIR_L then .enqueued m1 .inL
        else if m1.dir = DIR_R then .enqueued m1 .inR
        else .enqueued m1 .inD

/-- Go `bytes.IndexByte(buf, '\n')` on the byte list. -/
def idxNl : List Nat → Option Nat
  | [] => none
  | b :: rest => if b = 10 then some 0 else (idxNl rest).map (· + 1)

/-- Result of a `WriteFunc` call on the raw or MRT framer as `ReadBuf`
distinguishes it: success, `io.ErrUnexpectedEOF` (wait for more bytes),
or any other error. -/
inductive WFRes where
  | ok
  | eofWait
  | fail (e : ExtErr)

/-- The two streaming framer calls of `Extio.ReadBuf`, abstracted:
`rawWriteFunc` is `eio.InputD.WriteFunc`, `mrtWriteFunc` is
`eio.mrt.WriteFunc`; the messages they hand over inside the pipe stay
behind the oracle. -/
structure StreamCodec where
  rawWriteFunc : List Nat → WFRes
  mrtWriteFunc : List Nat → WFRes

/-- What one `ReadBuf` call did: the error it returned (if any), the
contents of the internal line buffer `eio.buf` afterwards, and the
messages its `ReadSingle` calls enqueued, in order. -/
structure BufRes where
  err : Option ExtErr
  acc : List Nat
  enq : List (Msg × Dest)

/-- The text-mode loop of `Extio.ReadBuf`: while the line buffer holds a
newline, hand the bytes through it (newline included) to `ReadSingle`;
stop and surface the first error, keeping the already-consumed state. -/
def textLoop (o : EioOpts) (c : Codec) (now : Nat) (cb : Option (Msg → Bool))
    (acc : List Nat) : BufRes :=
  match h : idxNl acc with
  | none => ⟨none, acc, []⟩
  | some i =>
    let rest := acc.drop (i + 1)
    match readSingle o c now cb (acc.take (i + 1)) with
    | .failed e => ⟨some e, rest, []⟩
    | .skipped => textLoop o c now cb rest
    | .enqueued m d =>
      let r := textLoop o c now cb rest
      ⟨r.err, r.acc, (m, d) :: r.enq⟩
termination_by acc.length
decreasing_by
  all_goals
    have hlt : i < acc.length := by
      clear * - h
      induction acc generalizing i with
      | nil => simp [idxNl] at h
      | cons b rest ih =>
        simp only [idxNl] at h
        split at h
        · simp only [Option.some.injEq] at h
          simp only [List.length_cons]
          omega
        · simp only [Option.map_eq_some'] at h
          obtain ⟨j, hj, rfl⟩ := h
          have := ih j hj
          simp only [List.length_cons]
          omega
    simp only [List.length_drop]
    omega

/-- `Extio.ReadBuf`: nothing in write-only mode; raw and MRT modes forward
the buffer to the streaming framer (treating `io.ErrUnexpectedEOF` as
"wait for more" and applying `--pardon` to other errors); text mode
appends to the internal line buffer and runs `ReadSingle` per complete
line. -/
def readBuf (o : EioOpts) (c : Codec) (sc : StreamCodec) (now : Nat)
    (cb : Option (Msg → Bool)) (acc buf : List Nat) : BufRes :=
  if o.write then ⟨none, acc, []⟩
  else if o.raw then
    match sc.rawWriteFunc buf with
    | .ok => ⟨none, acc, []⟩
    | .eofWait => ⟨none, acc, []⟩
    | .fail e => if o.pardon then ⟨none, acc, []⟩ else ⟨some e, acc, []⟩
  else if o.mrt then
    match sc.mrtWriteFunc buf with
    | .ok => ⟨none, acc, []⟩
    | .eofWait => ⟨none, acc, []⟩
    | .fail e => if o.pardon then ⟨none, acc, []⟩ else ⟨some e, acc, []⟩
  else
    textLoop o c now cb (acc ++ buf)

/-! ## Egress path (Extio.SendMsg) and shutdown -/

/-- The message-context flags `SendMsg` can set: `dropped` is
`mx.Action.Drop()` (hijack the message out of the in-pipe flow),
`cbDropped` is `mx.Callback.Drop()` (ask for callback self-removal). -/
structure MsgCtx where
  dropped : Bool
  cbDropped : Bool
  deriving DecidableEq

/-- The adapter's bounded output channel `eio.Output`: whether it has been
closed, and the buffers queued so far. -/
structure OutChan where
  closed : Bool
  queued : List (List Nat)
  deriving DecidableEq

/-- Result of a serialization call: the bytes put into the pooled buffer,
or an error. -/
inductive SerRes where
  | ok (bytes : List Nat)
  | fail (e : ExtErr)

/-- The two serializers `SendMsg` can call, abstracted: `marshalRaw` is
`m.Marshal(caps)` followed by `m.WriteTo(bb)`, `writeJSON` is
`bb.Write(m.GetJSON())`. -/
structure SendCodec where
  marshalRaw : Msg → SerRes
  writeJSON : Msg → SerRes

/-- What one `SendMsg` call did: reached `panic("TODO")`, or returned the
boolean with the message context and output channel left in the given
state. -/
inductive SendRes where
  | panicked (ctx : MsgCtx) (out : OutChan)
  | ret (b : Bool) (ctx : MsgCtx) (out : OutChan)
  deriving DecidableEq

/-- `send_safe(eio.Output, bb)`: enqueue on the open channel; on a closed
channel return false, upon which `SendMsg` drops its own callback —
either way `SendMsg` returns true. -/
def sendOut (ctx : MsgCtx) (out : OutChan) (bytes : List Nat) : SendRes :=
  if out.closed then .ret true { ctx with cbDropped := true } out
  else .ret true ctx { out with queued := out.queued ++ [bytes] }

/-- `Extio.SendMsg`: nothing in read-only mode; otherwise mark the message
context dropped unless `--copy`, serialize per mode (`--raw` marshal,
`--mrt` panics on the `TODO`, default JSON), log-and-return-true on a
serialization error, and offer the buffer to the output channel. -/
def sendMsg (o : EioOpts) (c : SendCodec) (m : Msg) (ctx : MsgCtx)
    (out : OutChan) : SendRes :=
  if o.read then .ret true ctx out
  else
    let ctx1 := if ¬o.copy then { ctx with dropped := true } else ctx
    if o.raw then
      match c.marshalRaw m with
      | .fail _ => .ret true ctx1 out
      | .ok bytes => sendOut ctx1 out bytes
    else if o.mrt then .panicked ctx1 out
    else
      match c.writeJSON m with
      | .fail _ => .ret true ctx1 out
      | .ok bytes => sendOut ctx1 out bytes

/-- The adapter state touched by `InputClose`: the options plus whether
the two directional inputs are still open. -/
structure EioState where
  opts : EioOpts
  inLopen : Bool
  inRopen : Bool
  deriving DecidableEq

/-- `Extio.InputClose`: flip to write-only and close both directional
inputs. -/
def inputClose (s : EioState) : EioState :=
  { s with opts := { s.opts with write := true }, inLopen := false, inRopen := false }

/-! ## Stage attach: direction resolution (StageBase.attach) -/

/-- The position-filter modes of the bgpfix pipe package. -/
inductive FilterMode where
  | FILTER_NONE
  | FILTER_GE
  | FILTER_GT
  | FILTER_LE
  | FILTER_LT
  | FILTER_ALL
  deriving DecidableEq

/-- The attach-time errors of `StageBase.attach` that the claims touch:
`ErrLR` (both `--left` and `--right` on a non-bidir stage) and
`ErrInject` (unknown injection target for `--in`). -/
inductive AttachErr where
  | ErrLR
  | ErrInject (v : String)
  | ErrFirstOrLast
  deriving DecidableEq

/-- The role options a stage declares (`StageOptions`), as far as
`StageBase.attach` reads them. -/
structure StageOpts where
  Bidir : Bool
  IsProducer : Bool
  IsConsumer : Bool
  deriving DecidableEq

/-- The first/last resolution at the top of `StageBase.attach`: index 1 is
first; otherwise the index equal to the stage count is last. -/
def firstLast (index stageCount : Nat) : Bool × Bool :=
  if index = 1 then (true, false)
  else if index = stageCount then (false, true)
  else (false, false)

/-- The left/right resolution of `StageBase.attach` (given the already
resolved first/last flags): both flags set requires a bidir stage; both
unset applies the default — right, except a producing last stage and a
non-producing first stage default to left — and sets `IsLeft` to the
negation of `IsRight`; one flag set is taken as-is. -/
def resolveDir (isFirst isLast : Bool) (so : StageOpts) (optLeft optRight : Bool) :
    Except AttachErr (Bool × Bool) :=
  let isLeft := optLeft
  let isRight := optRight
  if isLeft && isRight then
    if !so.Bidir then .error .ErrLR else .ok (isLeft, isRight)
  else if isLeft == isRight then
    let isRight := true
    let isRight :=
      if isLast && so.IsProducer then false
      else if isFirst && !so.IsProducer then false
      else isRight
    .ok (!isRight, isRight)
  else .ok (isLeft, isRight)

/-! ## Stage attach: input position filters (StageBase.attach) -/

/-- A stage as the `--in "@name"` resolution sees it: its name and its
index.  `Bgpipe.Stages` is sparse, so slots hold options. -/
structure StageRef where
  Name : String
  Index : Int
  deriving DecidableEq

/-- The `@name` search of `StageBase.attach`: the index of the first
non-nil stage whose `Name` equals the full `--in` value, or 0 when none
matches. -/
def findStageId (stages : List (Option StageRef)) (v : String) : Int :=
  match stages with
  | [] => 0
  | none :: rest => findStageId rest v
  | some s2 :: rest => if s2.Name = v then s2.Index else findStageId rest v

/-- The id resolution of the default branch of the `--in` switch: an
integer parses as itself; a value starting with `'@'` resolves through
the stage-name search; anything else stays 0. -/
def resolveFid (v : String) (stages : List (Option StageRef)) : Int :=
  match goAtoi v with
  | some id => id
  | none =>
    match v.data with
    | '@' :: _ => findStageId stages v
    | _ => 0

/-- The `--in` switch of `StageBase.attach`: the (reverse, forward) filter
modes and the filter id, or `ErrInject` when the default branch resolves
no positive id. -/
def inFilter (v : String) (index : Int) (stages : List (Option StageRef)) :
    Except AttachErr (FilterMode × FilterMode × Int) :=
  if v = "next" ∨ v = "" then .ok (.FILTER_GE, .FILTER_LE, index)
  else if v = "here" then .ok (.FILTER_GT, .FILTER_LT, index)
  else if v = "first" then .ok (.FILTER_NONE, .FILTER_NONE, 0)
  else if v = "last" then .ok (.FILTER_ALL, .FILTER_ALL, 0)
  else
    let fid := resolveFid v stages
    if fid ≤ 0 then .error (.ErrInject v) else .ok (.FILTER_GE, .FILTER_LE, fid)

/-- A registered `pipe.Input` as the fix-up loop of `StageBase.attach`
sees it. -/
structure PInput where
  Dir : Nat
  Id : Int
  FilterValue : Int
  Reverse : Bool
  CallbackFilter : FilterMode
  deriving DecidableEq

/-- The body of the input fix-up loop: stamp the stage index and the
filter id, then give an L-direction input the reverse mode and any other
input the forward mode. -/
def fixInput (index : Int) (frev ffwd : FilterMode) (fid : Int) (li : PInput) :
    PInput :=
  let li := { li with Id := index, FilterValue := fid }
  if li.Dir = DIR_L then { li with Reverse := true, CallbackFilter := frev }
  else { li with Reverse := false, CallbackFilter := ffwd }

/-- The input wiring of `StageBase.attach` for one stage: for a non-internal
stage (index > 0), resolve the `--in` filter and fix every input the stage
registered; an internal stage's inputs are left alone. -/
def attachInputs (v : String) (index : Int) (stages : List (Option StageRef))
    (inputs : List PInput) : Except AttachErr (List PInput) :=
  if 0 < index then
    match inFilter v index stages with
    | .error e => .error e
    | .ok (frev, ffwd, fid) => .ok (inputs.map (fixInput index frev ffwd fid))
  else .ok inputs

/-! ## Concrete instances used by witnesses and counterexamples -/

/-- A write-only option set (text mode). -/
def oWriteOnly : EioOpts :=
  { raw := false, mrt := false, read := false, write := true, copy := false,
    noseq := false, notime := false, notags := false, pardon := false, types := [] }

/-- A text-mode option set with every switch off. -/
def oTextPlain : EioOpts :=
  { raw := false, mrt := false, read := false, write := false, copy := false,
    noseq := false, notime := false, notags := false, pardon := false, types := [] }

/-- An `--mrt` option set with every other switch off. -/
def oMrtPlain : EioOpts :=
  { raw := false, mrt := true, read := false, write := false, copy := false,
    noseq := false, notime := false, notags := false, pardon := false, types := [] }

/-- A codec oracle whose calls all succeed trivially. -/
def trivCodec : Codec :=
  { fromBytes := fun _ => (none, 0, freshMsg),
    mrtFromBytes := fun _ => .sub,
    fromJSON := fun _ m => (none, m),
    updFromJSON := fun _ m => (none, m) }

/-- A streaming-framer oracle whose calls all succeed. -/
def trivStream : StreamCodec :=
  { rawWriteFunc := fun _ => .ok, mrtWriteFunc := fun _ => .ok }

/-- A serializer oracle whose calls all succeed with empty output. -/
def trivSend : SendCodec :=
  { marshalRaw := fun _ => .ok [], writeJSON := fun _ => .ok [] }

/-- A fresh message context: nothing dropped yet. -/
def ctx0 : MsgCtx := { dropped := false, cbDropped := false }

/-- An open, empty output channel. -/
def out0 : OutChan := { closed := false, queued := [] }

/-- Whether a `SendMsg` outcome is a normal return of `true`. -/
def isRetTrue : SendRes → Bool
  | .ret true _ _ => true
  | _ => false

/-! ## Theorems -/

lemma growBuf_le_cap (l n : Nat) (h : l ≤ 8 * 1024 * 1024) :
    growBuf l n ≤ 8 * 1024 * 1024 := by
  unfold growBuf
  split
  · next hc => omega
  · exact h

lemma readStreamSize_go_le (reads : List Nat) :
    ∀ l, l ≤ 8 * 1024 * 1024 →
      reads.foldl (fun l n => growBuf l (min n l)) l ≤ 8 * 1024 * 1024 := by
  induction reads with
  | nil => intro l h; simpa using h
  | cons r rest ih =>
    intro l h
    simpa using ih (growBuf l (min r l)) (growBuf_le_cap l (min r l) h)

lemma renumberSwap_map_stageLR (l : List (Option RStage)) :
    ∀ n, (renumberSwap n l).map stageLR = l.map stageRL := by
  induction l with
  | nil => intro n; rfl
  | cons s rest ih =>
    intro n
    cases s <;> simp [renumberSwap, stageLR, stageRL, ih]

lemma renumberSwap_map_stageRL (l : List (Option RStage)) :
    ∀ n, (renumberSwap n l).map stageRL = l.map stageLR := by
  induction l with
  | nil => intro n; rfl
  | cons s rest ih =>
    intro n
    cases s <;> simp [renumberSwap, stageLR, stageRL, ih]

lemma reverseTail_map {α β : Type} (f : α → β) (l : List α) :
    (reverseTail l).map f = reverseTail (l.map f) := by
  cases l <;> simp [reverseTail]

lemma reverseTail_reverseTail {α : Type} (l : List α) :
    reverseTail (reverseTail l) = l := by
  cases l <;> simp [reverseTail]

/-- C3: applying the `--reverse` transformation performed in
`Bgpipe.Attach` (reverse the stage list past slot 0, reassign indices, and
swap each stage's left/right flags) twice yields an equivalent pipeline:
the same stage at every index with the same left/right assignment. -/
theorem c3_reverse_involution (l : List (Option RStage)) :
    (applyReverse (applyReverse l)).map stageLR = l.map stageLR := by
  calc (applyReverse (applyReverse l)).map stageLR
      = (reverseTail (applyReverse l)).map stageRL := by
        rw [applyReverse, renumberSwap_map_stageLR]
    _ = reverseTail ((renumberSwap 0 (reverseTail l)).map stageRL) := by
        rw [reverseTail_map, applyReverse]
    _ = reverseTail ((reverseTail l).map stageLR) := by
        rw [renumberSwap_map_stageRL]
    _ = reverseTail (reverseTail (l.map stageLR)) := by
        rw [reverseTail_map]
    _ = l.map stageLR := reverseTail_reverseTail _

/-- C6 counterexample: seven consecutive full reads drive the
`Extio.ReadStream` buffer from 64 KiB up to 8 MiB, so its size does exceed
4 MiB — the growth condition is `l ≤ 4 MiB`, which lets a buffer of
exactly 4 MiB double one last time. -/
theorem c6_counterexample :
    4 * 1024 * 1024 < readStreamSize (List.replicate 7 (8 * 1024 * 1024)) := by
  decide

/-- C6 amended: in every execution of `Extio.ReadStream` the read buffer
starts at 64 KiB, is doubled after a read that fills more than half of it
while the size is still at most 4 MiB (and only then), and the size never
exceeds 8 MiB. -/
theorem c6_readstream_growth :
    readStreamSize [] = 64 * 1024 ∧
    (∀ l n, l / 2 < n ∧ l ≤ 4 * 1024 * 1024 → growBuf l n = l * 2) ∧
    (∀ l n, ¬(l / 2 < n ∧ l ≤ 4 * 1024 * 1024) → growBuf l n = l) ∧
    (∀ reads : List Nat, readStreamSize reads ≤ 8 * 1024 * 1024) := by
  refine ⟨rfl, ?_, ?_, ?_⟩
  · intro l n h
    simp [growBuf, h]
  · intro l n h
    simp [growBuf, h]
  · intro reads
    exact readStreamSize_go_le reads (64 * 1024) (by norm_num)

/-- C8 counterexample: the event form `"/x"` contains a `'/'` yet does not
pass through unchanged — `strings.IndexByte(et, '/') > 0` ignores a
leading slash, so the form is treated as a bare name and uppercased. -/
theorem c8_counterexample :
    cfgEventRewrite "/x" = "bgpfix/pipe./X" ∧ cfgEventRewrite "/x" ≠ "/x" := by
  constructor <;> decide

/-- C8 amended: `cfgEvents` rewrites every event name as follows: a name
with no `'.'` and no `'/'` after its first character becomes
`bgpfix/pipe.` followed by the name uppercased; a `pkg.NAME` form (a `'.'`
after the first character but no `'/'` after the first character) becomes
`bgpfix/` followed by the form; a form with a `'/'` after its first
character passes through unchanged. -/
theorem c8_cfgEvents_rewrite :
    (∀ et : String,
      (¬0 < indexOfChar '.' et.data ∧ ¬0 < indexOfChar '/' et.data →
        cfgEventRewrite et = "bgpfix/pipe." ++ asciiUpper et) ∧
      (0 < indexOfChar '.' et.data ∧ ¬0 < indexOfChar '/' et.data →
        cfgEventRewrite et = "bgpfix/" ++ et) ∧
      (0 < indexOfChar '/' et.data → cfgEventRewrite et = et)) ∧
    (∀ events : List String, events ≠ [] →
      cfgEvents events = events.map cfgEventRewrite) := by
  constructor
  · intro et
    refine ⟨?_, ?_, ?_⟩
    · intro h
      simp only [cfgEventRewrite]
      rw [if_neg (by tauto), if_pos (by tauto), if_pos (by tauto)]
    · intro h
      simp only [cfgEventRewrite]
      rw [if_neg (by tauto), if_pos (by tauto), if_neg (by tauto)]
    · intro h
      by_cases hp : 0 < indexOfChar '.' et.data
      · simp only [cfgEventRewrite]
        rw [if_pos (by tauto)]
      · simp only [cfgEventRewrite]
        rw [if_neg (by tauto), if_neg (by tauto)]
  · intro events h
    simp [cfgEvents, h, List.length_eq_zero]

/-- C2: when a stage sets neither `--left` nor `--right` (both false), its
direction defaults to R, except that a last stage with the `IsProducer`
role and a first stage without it default to L; in every default case
`IsLeft` is the negation of `IsRight`.  Setting both flags fails with
`ErrLR` unless the stage's options declare it bidirectional. -/
theorem c2_direction_default (isFirst isLast : Bool) (so : StageOpts) :
    (isLast = true ∧ so.IsProducer = true →
      resolveDir isFirst isLast so false false = .ok (true, false)) ∧
    (isFirst = true ∧ so.IsProducer = false →
      resolveDir isFirst isLast so false false = .ok (true, false)) ∧
    (¬(isLast = true ∧ so.IsProducer = true) →
      ¬(isFirst = true ∧ so.IsProducer = false) →
      resolveDir isFirst isLast so false false = .ok (false, true)) ∧
    (so.Bidir = false → resolveDir isFirst isLast so true true = .error .ErrLR) ∧
    (so.Bidir = true → resolveDir isFirst isLast so true true = .ok (true, true)) := by
  obtain ⟨bd, pr, co⟩ := so
  cases isFirst <;> cases isLast <;> cases bd <;> cases pr <;>
    simp [resolveDir]

/-- C5: `Extio.Attach` fails when both `--raw` and `--mrt` are set, fails
when both `--read` and `--write` are set, and forces `--copy` whenever
exactly one of `--read`/`--write` is set and it succeeds. -/
theorem c5_attach_checks (ts : String → Option Nat) (a : AttachFlags) :
    (a.raw = true → a.mrt = true → ∃ e, eioAttach ts a = .error e) ∧
    (a.read = true → a.write = true → ∃ e, eioAttach ts a = .error e) ∧
    (a.read ≠ a.write → ∀ o, eioAttach ts a = .ok o → o.copy = true) := by
  cases hpt : parseTypes ts a.typeStrings with
  | error e =>
    refine ⟨fun _ _ => ⟨e, ?_⟩, fun _ _ => ⟨e, ?_⟩, fun _ o ho => ?_⟩ <;>
      simp [eioAttach, hpt] at *
  | ok tl =>
    obtain ⟨raw, mrt, rd, wr, cp, ns, nt, ng, pd, tss⟩ := a
    cases raw <;> cases mrt <;> cases rd <;> cases wr <;>
      simp [eioAttach, hpt] <;>
      first
        | (intro o ho; simp [← ho])
        | (intro _ o ho; simp [← ho])
        | exact fun _ => ⟨_, rfl⟩
        | exact ⟨_, rfl⟩

/-- C7: with `--mrt` set (and `--raw` clear, as `Extio.Attach` enforces),
`Extio.SendMsg` hits the not-yet-implemented MRT serialization for every
message it is asked to serialize — modelled as the `panicked` outcome —
instead of serializing it, and never queues anything on the output
channel. -/
theorem c7_sendmsg_mrt (o : EioOpts) (c : SendCodec) (m : Msg) (ctx : MsgCtx)
    (out : OutChan) (hm : o.mrt = true) (hr : o.raw = false) :
    (o.read = false →
      sendMsg o c m ctx out =
        .panicked (if ¬o.copy then { ctx with dropped := true } else ctx) out) ∧
    (∀ b ctx1 out1, sendMsg o c m ctx out = .ret b ctx1 out1 → out1 = out) := by
  constructor
  · intro hread
    simp [sendMsg, hm, hr, hread]
  · intro b ctx1 out1 hret
    by_cases hread : o.read = true
    · simp [sendMsg, hread] at hret
      exact hret.2.2.symm
    · simp at hread
      simp [sendMsg, hm, hr, hread] at hret

/-- C7 witness: a concrete `--mrt` send panics with the message context
marked dropped and the output channel untouched. -/
theorem c7_sendmsg_mrt_witness :
    sendMsg oMrtPlain trivSend freshMsg ctx0 out0 =
      .panicked { dropped := true, cbDropped := false } out0 := by
  have h := (c7_sendmsg_mrt oMrtPlain trivSend freshMsg ctx0 out0 rfl rfl).1 rfl
  simpa [oMrtPlain, ctx0] using h

/-- C9: whenever the adapter is write-only (`opt_write` set, as
`InputClose` sets it), `ReadSingle` and `ReadBuf` return nil for every
buffer and callback without parsing, enqueuing or reporting anything, and
the line buffer is left unchanged; `InputClose` itself flips to
write-only and closes both directional inputs. -/
theorem c9_writeonly (o : EioOpts) (c : Codec) (sc : StreamCodec) (now : Nat)
    (cb : Option (Msg → Bool)) (hw : o.write = true) :
    (∀ buf, readSingle o c now cb buf = .skipped) ∧
    (∀ acc buf, readBuf o c sc now cb acc buf = ⟨none, acc, []⟩) ∧
    (∀ s : EioState,
      (inputClose s).opts.write = true ∧
      (inputClose s).inLopen = false ∧ (inputClose s).inRopen = false) := by
  refine ⟨fun buf => ?_, fun acc buf => ?_, fun s => ?_⟩
  · simp [readSingle, hw]
  · simp [readBuf, hw]
  · simp [inputClose]

/-- C9 witness: a concrete write-only read of a would-be JSON line is
silently discarded. -/
theorem c9_writeonly_witness :
    readSingle oWriteOnly trivCodec 0 none [91] = .skipped :=
  (c9_writeonly oWriteOnly trivCodec trivStream 0 none rfl).1 [91]

/-- C10 counterexample: `SendMsg` does not return true for every message
in every mode — in `--mrt` mode it panics instead of returning. -/
theorem c10_counterexample :
    isRetTrue (sendMsg oMrtPlain trivSend freshMsg ctx0 out0) = false := by
  decide

/-- C10 amended: in every mode except the `--mrt` serialization path
(which panics), `SendMsg` returns true — it never signals failure through
its return value; when serialization fails it returns true with nothing
queued on the output channel, even though, unless `--copy` is set, the
message context has already been marked dropped, silently removing the
message from both the in-pipe flow and the external output. -/
theorem c10_sendmsg_returns_true (o : EioOpts) (c : SendCodec) (m : Msg)
    (ctx : MsgCtx) (out : OutChan) :
    (¬(o.mrt = true ∧ o.raw = false ∧ o.read = false) →
      isRetTrue (sendMsg o c m ctx out) = true) ∧
    (∀ e, o.read = false → o.raw = true → c.marshalRaw m = .fail e →
      sendMsg o c m ctx out =
        .ret true (if ¬o.copy then { ctx with dropped := true } else ctx) out) ∧
    (∀ e, o.read = false → o.raw = false → o.mrt = false →
      c.writeJSON m = .fail e →
      sendMsg o c m ctx out =
        .ret true (if ¬o.copy then { ctx with dropped := true } else ctx) out) := by
  refine ⟨?_, ?_, ?_⟩
  · intro hnot
    by_cases hread : o.read = true
    · simp [sendMsg, isRetTrue, hread]
    · simp at hread
      by_cases hraw : o.raw = true
      · rcases hmr : c.marshalRaw m with bytes | e
        · by_cases hcl : out.closed = true
          · simp [sendMsg, isRetTrue, sendOut, hread, hraw, hmr, hcl]
          · simp at hcl
            simp [sendMsg, isRetTrue, sendOut, hread, hraw, hmr, hcl]
        · simp [sendMsg, isRetTrue, hread, hraw, hmr]
      · simp at hraw
        have hmrt : o.mrt = false := by
          by_contra hc
          simp at hc
          exact hnot ⟨hc, hraw, hread⟩
        rcases hjs : c.writeJSON m with bytes | e
        · by_cases hcl : out.closed = true
          · simp [sendMsg, isRetTrue, sendOut, hread, hraw, hmrt, hjs, hcl]
          · simp at hcl
            simp [sendMsg, isRetTrue, sendOut, hread, hraw, hmrt, hjs, hcl]
        · simp [sendMsg, isRetTrue, hread, hraw, hmrt, hjs]
  · intro e hread hraw hmr
    simp [sendMsg, hread, hraw, hmr]
  · intro e hread hraw hmrt hjs
    simp [sendMsg, hread, hraw, hmrt, hjs]

/-- C4: `Extio.ReadSingle` in text mode skips (nil, nothing enqueued) a
buffer that trims to empty or to a `'#'` comment; parses a `'['` buffer
as a generic message, coercing an INVALID result to KEEPALIVE; parses a
`'\x7b'` buffer as an UPDATE; fails any other first byte with the format
error; and, on any parse error, drops the buffer silently when `--pardon`
is set and returns the error otherwise. -/
theorem c4_readsingle_text (o : EioOpts) (c : Codec) (now : Nat)
    (cb : Option (Msg → Bool)) (buf : List Nat)
    (hr : o.raw = false) (hm : o.mrt = false) (hw : o.write = false) :
    (trimSpace buf = [] ∨ (trimSpace buf).headD 0 = 35 →
      readSingle o c now cb buf = .skipped) ∧
    (∀ m1, (trimSpace buf).headD 0 = 91 →
      c.fromJSON (trimSpace buf) freshMsg = (none, m1) →
      parsePhase o c buf =
        .ok (if m1.typ = msgINVALID then msgUse m1 msgKEEPALIVE else m1)) ∧
    (∀ m1, (trimSpace buf).headD 0 = 123 →
      c.updFromJSON (trimSpace buf) (msgUse freshMsg msgUPDATE) = (none, m1) →
      parsePhase o c buf = .ok m1) ∧
    (trimSpace buf ≠ [] → (trimSpace buf).headD 0 ≠ 35 →
      (trimSpace buf).headD 0 ≠ 91 → (trimSpace buf).headD 0 ≠ 123 →
      readSingle o c now cb buf = if o.pardon then .skipped else .failed .format) ∧
    (∀ e1, parsePhase o c buf = .failed e1 →
      readSingle o c now cb buf = if o.pardon then .skipped else .failed e1) := by
  refine ⟨?_, ?_, ?_, ?_, ?_⟩
  · intro hcomment
    have hp : parsePhase o c buf = .silent := by
      rcases hcomment with h0 | h0
      · simp [parsePhase, hr, hm, h0]
      · have h0' : (trimSpace buf).head?.getD 0 = 35 := by simpa using h0
        simp [parsePhase, hr, hm, h0']
    simp [readSingle, hw, hp]
  · intro m1 hhead hjson
    have hne : trimSpace buf ≠ [] := by
      intro h0
      rw [h0] at hhead
      simp at hhead
    have hlen : (trimSpace buf).length ≠ 0 := by
      simpa [List.length_eq_zero] using hne
    have hhead' : (trimSpace buf).head?.getD 0 = 91 := by simpa using hhead
    simp [parsePhase, hr, hm, hlen, hhead', hjson]
  · intro m1 hhead hjson
    have hne : trimSpace buf ≠ [] := by
      intro h0
      rw [h0] at hhead
      simp at hhead
    have hlen : (trimSpace buf).length ≠ 0 := by
      simpa [List.length_eq_zero] using hne
    have hhead' : (trimSpace buf).head?.getD 0 = 123 := by simpa using hhead
    simp [parsePhase, hr, hm, hlen, hhead', hjson]
  · intro h0 h35 h91 h123
    have hlen : (trimSpace buf).length ≠ 0 := by
      simpa [List.length_eq_zero] using h0
    have h35' : (trimSpace buf).head?.getD 0 ≠ 35 := by simpa using h35
    have h91' : (trimSpace buf).head?.getD 0 ≠ 91 := by simpa using h91
    have h123' : (trimSpace buf).head?.getD 0 ≠ 123 := by simpa using h123
    have hp : parsePhase o c buf = .failed .format := by
      simp [parsePhase, hr, hm, hlen, h35', h91', h123']
    simp [readSingle, hw, hp]
  · intro e1 hp
    simp [readSingle, hw, hp]

/-- C4 witness: a concrete `'#'` comment line is skipped in text mode. -/
theorem c4_readsingle_text_witness :
    readSingle oTextPlain trivCodec 0 none [35] = .skipped := by
  have h := (c4_readsingle_text oTextPlain trivCodec 0 none [35] rfl rfl rfl).1
  exact h (Or.inr (by decide))

/-- C1: for a non-internal stage (index > 0) the input position filter is
computed from the `--in` option exactly as the claim lists: `next` or
empty gives GE (reverse) / LE (forward) with the stage's own index,
`here` gives GT / LT with its own index, `first` gives no filter, `last`
gives the all filter, a positive integer gives GE / LE with that id, an
`@name` value gives GE / LE with the index of the first matching stage,
and a value resolving to no positive id fails with `ErrInject`; every
L-direction input gets the reverse mode and every R-direction input the
forward mode. -/
theorem c1_input_filter (index : Int) (stages : List (Option StageRef))
    (inputs : List PInput) (h : 0 < index) :
    (∀ v, v = "next" ∨ v = "" →
      attachInputs v index stages inputs =
        .ok (inputs.map (fixInput index .FILTER_GE .FILTER_LE index))) ∧
    (attachInputs "here" index stages inputs =
      .ok (inputs.map (fixInput index .FILTER_GT .FILTER_LT index))) ∧
    (attachInputs "first" index stages inputs =
      .ok (inputs.map (fixInput index .FILTER_NONE .FILTER_NONE 0))) ∧
    (attachInputs "last" index stages inputs =
      .ok (inputs.map (fixInput index .FILTER_ALL .FILTER_ALL 0))) ∧
    (∀ v id, goAtoi v = some id → 0 < id →
      attachInputs v index stages inputs =
        .ok (inputs.map (fixInput index .FILTER_GE .FILTER_LE id))) ∧
    (∀ v id rest, goAtoi v = none → v.data = '@' :: rest →
      findStageId stages v = id → 0 < id →
      attachInputs v index stages inputs =
        .ok (inputs.map (fixInput index .FILTER_GE .FILTER_LE id))) ∧
    (∀ v, v ≠ "next" → v ≠ "" → v ≠ "here" → v ≠ "first" → v ≠ "last" →
      resolveFid v stages ≤ 0 →
      attachInputs v index stages inputs = .error (.ErrInject v)) ∧
    (∀ li frev ffwd fid,
      (li.Dir = DIR_L →
        fixInput index frev ffwd fid li =
          { li with Id := index, FilterValue := fid,
                    Reverse := true, CallbackFilter := frev }) ∧
      (li.Dir = DIR_R →
        fixInput index frev ffwd fid li =
          { li with Id := index, FilterValue := fid,
                    Reverse := false, CallbackFilter := ffwd })) := by
  refine ⟨?_, ?_, ?_, ?_, ?_, ?_, ?_, ?_⟩
  · rintro v (rfl | rfl) <;> simp [attachInputs, inFilter, h]
  · simp [attachInputs, inFilter, h]
  · simp [attachInputs, inFilter, h]
  · simp [attachInputs, inFilter, h]
  · intro v id hatoi hid
    have hv1 : v ≠ "next" := fun hv => by
      rw [hv, show goAtoi "next" = none from rfl] at hatoi
      exact Option.noConfusion hatoi
    have hv2 : v ≠ "" := fun hv => by
      rw [hv, show goAtoi "" = none from rfl] at hatoi
      exact Option.noConfusion hatoi
    have hv3 : v ≠ "here" := fun hv => by
      rw [hv, show goAtoi "here" = none from rfl] at hatoi
      exact Option.noConfusion hatoi
    have hv4 : v ≠ "first" := fun hv => by
      rw [hv, show goAtoi "first" = none from rfl] at hatoi
      exact Option.noConfusion hatoi
    have hv5 : v ≠ "last" := fun hv => by
      rw [hv, show goAtoi "last" = none from rfl] at hatoi
      exact Option.noConfusion hatoi
    have hid2 : ¬id ≤ 0 := by omega
    simp [attachInputs, inFilter, resolveFid, h, hv1, hv2, hv3, hv4, hv5,
      hatoi, hid2]
  · intro v id rest hatoi hdata hfind hid
    have hhead : v.data.headD ' ' = '@' := by rw [hdata]; rfl
    have hv1 : v ≠ "next" := fun hv => by
      rw [hv] at hhead
      exact absurd hhead (by decide)
    have hv2 : v ≠ "" := fun hv => by
      rw [hv] at hhead
      exact absurd hhead (by decide)
    have hv3 : v ≠ "here" := fun hv => by
      rw [hv] at hhead
      exact absurd hhead (by decide)
    have hv4 : v ≠ "first" := fun hv => by
      rw [hv] at hhead
      exact absurd hhead (by decide)
    have hv5 : v ≠ "last" := fun hv => by
      rw [hv] at hhead
      exact absurd hhead (by decide)
    have hid2 : ¬id ≤ 0 := by omega
    simp [attachInputs, inFilter, resolveFid, h, hv1, hv2, hv3, hv4, hv5,
      hatoi, hdata, hfind, hid2]
  · intro v hv1 hv2 hv3 hv4 hv5 hle
    simp [attachInputs, inFilter, h, hv1, hv2, hv3, hv4, hv5, hle]
  · intro li frev ffwd fid
    constructor
    · intro hdir
      simp [fixInput, hdir, DIR_L]
    · intro hdir
      simp [fixInput, hdir, DIR_L, DIR_R]

/-- C1 witness: a concrete `--in next` stage at index 2 with no inputs
attaches successfully. -/
theorem c1_input_filter_witness :
    attachInputs "next" 2 [] [] = .ok [] := by
  have hthm := (c1_input_filter 2 [] [] (by norm_num)).1 "next" (Or.inl rfl)
  simpa using hthm

end BG
